import Mathlib

/-!
Verification of the CSS selector builder in `src/06-objects-tasks.js`.

The source implements a fluent builder: one constructor function per
selector-part kind (`ElementSelector`, `IdSelector`, `ClassSelector`,
`AttrSelector`, `PseudoClassSelector`, `PseudoElementSelector`), all storing
`value` (the payload) and `prevValue` (the already-rendered prefix, computed
at construction as `builder.stringify()` when the builder is a fragment and
`''` when it is the bare `cssSelectorBuilder`).  Illegal part additions are
realized by overriding the corresponding method on the kind-specific
prototype with `selectorsOrderError` or `multipleSelectorsError`, both of
which throw.  `combine` returns an object whose `stringify` joins the two
operands with the combinator surrounded by single spaces.

The embedding below mirrors that structure: `Kind` is the per-constructor
tag, `dispatch` is the prototype method table (lines 223-268 of the source),
`Fragment` carries `value` and `prevValue`, `step` models one part-adding
call, and `Selector.stringify` models rendering of chains and combined
values.  A state-passing variant (`Fragment.stringifyS`, `stepS`) translates
the method bodies as receiver-in / receiver-out functions, making the
absence of mutation a provable statement rather than a modelling assumption.
-/

/-- The six selector-part kinds, one per constructor function in the source.
The `deriving` clauses make equality decidable and the type enumerable so
that concrete chains can be checked by evaluation. -/
inductive Kind where
  | Element
  | Id
  | Class
  | Attribute
  | PseudoClass
  | PseudoElement
deriving DecidableEq, Fintype, Repr

/-- Position of a kind in the total order
`Element < Id < Class < Attribute < PseudoClass < PseudoElement`. -/
def Kind.pos : Kind → Nat
  | .Element => 0
  | .Id => 1
  | .Class => 2
  | .Attribute => 3
  | .PseudoClass => 4
  | .PseudoElement => 5

/-- The three single-occurrence kinds: the source overrides exactly
`element` on `ElementSelector`, `id` on `IdSelector` and `pseudoElement`
on `PseudoElementSelector` with `multipleSelectorsError`. -/
def Kind.single : Kind → Bool
  | .Element => true
  | .Id => true
  | .PseudoElement => true
  | _ => false

/-- Outcome of looking up a part-adding method on a receiver: the method is
either the inherited legal constructor call, or one of the two error
throwers installed on the kind-specific prototype. -/
inductive PartOutcome where
  | legal
  | order
  | multiple
deriving DecidableEq, Repr

/-- The prototype method table of the source, lines 223-268.  The receiver
is `none` for the bare `cssSelectorBuilder` (all six methods legal) and
`some k` for a fragment constructed by the kind-`k` constructor.  Methods
not overridden on the kind-specific prototype are inherited from
`cssSelectorBuilder` (via `selectorBase.prototype = cssSelectorBuilder`)
and are legal. -/
def dispatch : Option Kind → Kind → PartOutcome
  | none, _ => .legal
  | some .Element, .Element => .multiple
  | some .Element, _ => .legal
  | some .Id, .Id => .multiple
  | some .Id, .Element => .order
  | some .Id, _ => .legal
  | some .Class, .Element => .order
  | some .Class, .Id => .order
  | some .Class, _ => .legal
  | some .Attribute, .Element => .order
  | some .Attribute, .Id => .order
  | some .Attribute, .Class => .order
  | some .Attribute, _ => .legal
  | some .PseudoClass, .Element => .order
  | some .PseudoClass, .Id => .order
  | some .PseudoClass, .Class => .order
  | some .PseudoClass, .Attribute => .order
  | some .PseudoClass, _ => .legal
  | some .PseudoElement, .PseudoElement => .multiple
  | some .PseudoElement, .Element => .order
  | some .PseudoElement, .Id => .order
  | some .PseudoElement, .Class => .order
  | some .PseudoElement, .Attribute => .order
  | some .PseudoElement, .PseudoClass => .order

/-- A selector fragment: the fields every kind-specific constructor writes,
namely the payload `value` and the rendered prefix `prevValue`, plus the
tag recording which constructor built it. -/
structure Fragment where
  kind : Kind
  value : String
  prevValue : String
deriving DecidableEq, Repr

/-- The per-kind `currentValueStr` methods of the source: the base version
returns `value` (inherited by `ElementSelector`), and each remaining
prototype prepends or wraps with its token. -/
def Fragment.currentValueStr (f : Fragment) : String :=
  match f.kind with
  | .Element => f.value
  | .Id => "#" ++ f.value
  | .Class => "." ++ f.value
  | .Attribute => "[" ++ f.value ++ "]"
  | .PseudoClass => ":" ++ f.value
  | .PseudoElement => "::" ++ f.value

/-- The `stringify` method of `selectorBase.prototype`:
`` `${this.prevValue}${this.currentValueStr()}` ``. -/
def Fragment.stringify (f : Fragment) : String :=
  f.prevValue ++ f.currentValueStr

/-- Rendering of a single part in isolation, the per-kind token applied to
the payload. -/
def renderPart (k : Kind) (v : String) : String :=
  Fragment.currentValueStr ⟨k, v, ""⟩

/-- The two error kinds the source can throw while adding a part:
`selectorsOrderError` and `multipleSelectorsError`. -/
inductive SelErr where
  | orderErr
  | multipleErr
deriving DecidableEq, Repr

/-- Message of the error thrown by `selectorsOrderError`: the source passes
a regular-expression literal to `new Error`, so the message is that regex
converted to a string, slashes included. -/
def selectorsOrderMessage : String :=
  "/Selector parts should be arranged in the following order: element, id, class, attribute, pseudo-class, pseudo-element/"

/-- Message of the error thrown by `multipleSelectorsError` (verbatim,
including the source's spelling). -/
def multipleSelectorsMessage : String :=
  "Element, id and pseudo-element should not occur more then one time inside the selector"

/-- The message carried by each error kind. -/
def SelErr.message : SelErr → String
  | .orderErr => selectorsOrderMessage
  | .multipleErr => multipleSelectorsMessage

/-- The `prevValue` a constructor computes from its `builder` argument:
`builder.stringify()` when the builder is a fragment (`instanceof
selectorBase`), `''` when it is the bare `cssSelectorBuilder`. -/
def prevOf : Option Fragment → String
  | none => ""
  | some b => b.stringify

/-- One part-adding call on a receiver (`none` = bare `cssSelectorBuilder`,
`some f` = the fragment `f`): look the method up in the prototype table;
when legal, construct the new fragment with `prevValue` set to `prevOf`
of the receiver. -/
def step (cur : Option Fragment) (k : Kind) (v : String) :
    Except SelErr Fragment :=
  match dispatch (cur.map Fragment.kind) k with
  | .legal => .ok ⟨k, v, prevOf cur⟩
  | .order => .error .orderErr
  | .multiple => .error .multipleErr

/-- Run a list of part-adding calls in order, starting from the given
receiver; stops at the first thrown error. -/
def runChain (cur : Option Fragment) :
    List (Kind × String) → Except SelErr (Option Fragment)
  | [] => .ok cur
  | (k, v) :: rest =>
      match step cur k v with
      | .ok f => runChain (some f) rest
      | .error e => .error e

/-- A built selector value: either a fragment chain or the result of
`combine` (which the source returns as an object whose only method is
`stringify`). -/
inductive Selector where
  | frag : Fragment → Selector
  | comb : Selector → String → Selector → Selector

/-- Rendering of a built selector value; on a combined value this is the
source's `` `${selector1.stringify()} ${combinator} ${selector2.stringify()}` ``. -/
def Selector.stringify : Selector → String
  | .frag f => f.stringify
  | .comb a c b => a.stringify ++ " " ++ c ++ " " ++ b.stringify

deriving instance DecidableEq for Except

/-- State-passing translation of `selectorBase.prototype.stringify`: the
method body reads `this.prevValue` and `this.value` and assigns nothing, so
the receiver comes back unchanged alongside the returned string. -/
def Fragment.stringifyS (f : Fragment) : String × Fragment :=
  (f.prevValue ++ f.currentValueStr, f)

/-- State-passing translation of rendering a built selector value: each
`stringify` call returns its string together with the receiver as the
method body left it. -/
def Selector.renderS : Selector → String × Selector
  | .frag f =>
      let p := f.stringifyS
      (p.1, .frag p.2)
  | .comb a c b =>
      let pa := Selector.renderS a
      let pb := Selector.renderS b
      (pa.1 ++ " " ++ c ++ " " ++ pb.1, .comb pa.2 c pb.2)

/-- State-passing translation of the kind-specific constructor bodies
(`this.value = val; this.prevValue = builder instanceof selectorBase ?
builder.stringify() : ''`): the new fragment is returned together with the
builder as the constructor left it. -/
def newSelectorS (k : Kind) (v : String) (builder : Option Fragment) :
    Fragment × Option Fragment :=
  match builder with
  | some b =>
      let p := b.stringifyS
      (⟨k, v, p.1⟩, some p.2)
  | none => (⟨k, v, ""⟩, none)

/-- State-passing translation of one part-adding call: dispatch through the
prototype table, and on the legal branch run the constructor, returning the
new fragment together with the receiver as the call left it. -/
def stepS (cur : Option Fragment) (k : Kind) (v : String) :
    Except SelErr (Fragment × Option Fragment) :=
  match dispatch (cur.map Fragment.kind) k with
  | .legal => .ok (newSelectorS k v cur)
  | .order => .error .orderErr
  | .multiple => .error .multipleErr

/-- A list of kinds is non-decreasing in the total order. -/
def nonDecr : List Kind → Bool
  | [] => true
  | [_] => true
  | a :: b :: rest => decide (a.pos ≤ b.pos) && nonDecr (b :: rest)

/-- Number of occurrences of a kind in a list of kinds. -/
def countK (k : Kind) : List Kind → Nat
  | [] => 0
  | a :: rest => (if a = k then 1 else 0) + countK k rest

/-- Concatenation of a list of strings with no separators. -/
def concatAll : List String → String
  | [] => ""
  | s :: rest => s ++ concatAll rest

/-- Token emitted before the payload by the kind's `currentValueStr`. -/
def openTok : Kind → String
  | .Element => ""
  | .Id => "#"
  | .Class => "."
  | .Attribute => "["
  | .PseudoClass => ":"
  | .PseudoElement => "::"

/-- Token emitted after the payload by the kind's `currentValueStr`
(only `Attribute` closes with a bracket). -/
def closeTok : Kind → String
  | .Attribute => "]"
  | _ => ""

/-- Whether the second character list is an initial segment of the first. -/
def listStartsWith : List Char → List Char → Bool
  | _, [] => true
  | [], _ :: _ => false
  | a :: as, b :: bs => a == b && listStartsWith as bs

/-- Whether the second character list occurs contiguously inside the
first. -/
def listContainsSub : List Char → List Char → Bool
  | hay, sub =>
      listStartsWith hay sub ||
        match hay with
        | [] => false
        | _ :: t => listContainsSub t sub

/-- Positions determine kinds. -/
lemma Kind.pos_injective : ∀ a b : Kind, a.pos = b.pos → a = b := by decide

/-- On the bare builder every part-adding method is legal. -/
lemma dispatch_none_legal : ∀ k : Kind, dispatch none k = .legal := by decide

/-- A legal method on a fragment never moves down the order. -/
lemma dispatch_le_of_legal :
    ∀ a r : Kind, dispatch (some a) r = .legal → a.pos ≤ r.pos := by decide

/-- Requesting a kind strictly below the receiver's kind lands on
`selectorsOrderError`. -/
lemma dispatch_order_of_lt :
    ∀ a r : Kind, r.pos < a.pos → dispatch (some a) r = .order := by decide

/-- Requesting a kind strictly above the receiver's kind is legal. -/
lemma dispatch_legal_of_lt :
    ∀ a r : Kind, a.pos < r.pos → dispatch (some a) r = .legal := by decide

/-- Requesting the receiver's own kind when it is single-occurrence lands
on `multipleSelectorsError`. -/
lemma dispatch_multiple_of_single_self :
    ∀ a : Kind, a.single = true → dispatch (some a) a = .multiple := by decide

/-- Requesting the receiver's own kind when it is repeatable is legal. -/
lemma dispatch_legal_of_self_repeat :
    ∀ a : Kind, a.single = false → dispatch (some a) a = .legal := by decide

/-- Unfolding `step` on the legal branch. -/
lemma step_of_legal (cur : Option Fragment) (k : Kind) (v : String)
    (h : dispatch (cur.map Fragment.kind) k = .legal) :
    step cur k v = .ok ⟨k, v, prevOf cur⟩ := by
  simp [step, h]

/-- Unfolding `step` on the order-error branch. -/
lemma step_of_order (cur : Option Fragment) (k : Kind) (v : String)
    (h : dispatch (cur.map Fragment.kind) k = .order) :
    step cur k v = .error .orderErr := by
  simp [step, h]

/-- Unfolding `step` on the cardinality-error branch. -/
lemma step_of_multiple (cur : Option Fragment) (k : Kind) (v : String)
    (h : dispatch (cur.map Fragment.kind) k = .multiple) :
    step cur k v = .error .multipleErr := by
  simp [step, h]

/-- A successful `step` means the dispatch was legal and the new fragment
is the constructor's result. -/
lemma step_ok_elim (cur : Option Fragment) (k : Kind) (v : String)
    (f : Fragment) (h : step cur k v = .ok f) :
    dispatch (cur.map Fragment.kind) k = .legal ∧ f = ⟨k, v, prevOf cur⟩ := by
  cases hd : dispatch (cur.map Fragment.kind) k <;> simp [step, hd] at h
  exact ⟨rfl, h.symm⟩

/-- The rendered string of a freshly constructed fragment is its prefix
followed by the rendering of its own part. -/
lemma stringify_mk (k : Kind) (v p : String) :
    Fragment.stringify ⟨k, v, p⟩ = p ++ renderPart k v := by
  cases k <;> rfl

/-- Unfolding `runChain` over a first operation. -/
lemma runChain_cons (cur : Option Fragment) (k : Kind) (v : String)
    (rest : List (Kind × String)) :
    runChain cur ((k, v) :: rest) =
      match step cur k v with
      | .ok f => runChain (some f) rest
      | .error e => .error e := rfl

/-- Dropping a head never increases an occurrence count. -/
lemma countK_cons_le (s a : Kind) (l : List Kind) :
    countK s l ≤ countK s (a :: l) := by
  simp only [countK]
  split <;> omega

/-- Invariant of successful chains: the final fragment's kind bounds every
kind added along the way (and the starting fragment's kind), and is itself
one of the added kinds unless nothing was added. -/
lemma runChain_ok_bounds (ops : List (Kind × String)) :
    ∀ (cur : Option Fragment) (f : Fragment),
      runChain cur ops = .ok (some f) →
      (∀ k ∈ ops.map Prod.fst, k.pos ≤ f.kind.pos) ∧
      (∀ g, cur = some g → g.kind.pos ≤ f.kind.pos) ∧
      (f.kind ∈ ops.map Prod.fst ∨ cur = some f) := by
  induction ops with
  | nil =>
      intro cur f h
      simp only [runChain] at h
      cases h
      refine ⟨by simp, ?_, Or.inr rfl⟩
      intro g hg
      cases hg
      exact Nat.le_refl _
  | cons p rest ih =>
      obtain ⟨k, v⟩ := p
      intro cur f h
      rw [runChain_cons] at h
      cases hs : step cur k v with
      | error e => rw [hs] at h; cases h
      | ok f0 =>
          rw [hs] at h
          obtain ⟨hd, hf0⟩ := step_ok_elim cur k v f0 hs
          obtain ⟨ih1, ih2, _⟩ := ih (some f0) f h
          have hk0 : f0.kind = k := by rw [hf0]
          have hkle : k.pos ≤ f.kind.pos := by
            have := ih2 f0 rfl
            rwa [hk0] at this
          refine ⟨?_, ?_, ?_⟩
          · intro k' hk'
            rw [List.map_cons] at hk'
            rcases List.mem_cons.mp hk' with h1 | h1
            · rw [h1]; exact hkle
            · exact ih1 k' h1
          · intro g hg
            subst hg
            have hdg : dispatch (some g.kind) k = .legal := hd
            exact Nat.le_trans (dispatch_le_of_legal g.kind k hdg) hkle
          · left
            rcases ih (some f0) f h |>.2.2 with h1 | h1
            · exact List.mem_cons_of_mem _ h1
            · cases h1
              rw [List.map_cons, hk0]
              exact List.mem_cons_self _ _

/-- From any fragment, a continuation whose kinds stay non-decreasing and
do not repeat a single-occurrence kind runs without error, and the result
renders as the starting fragment's string followed by the renderings of the
added parts. -/
lemma runChain_valid_ok (ops : List (Kind × String)) :
    ∀ f : Fragment,
      nonDecr (f.kind :: ops.map Prod.fst) = true →
      (∀ s : Kind, s.single = true → countK s (f.kind :: ops.map Prod.fst) ≤ 1) →
      ∃ g, runChain (some f) ops = .ok (some g) ∧
        g.stringify =
          f.stringify ++ concatAll (ops.map fun p => renderPart p.1 p.2) := by
  induction ops with
  | nil =>
      intro f _ _
      exact ⟨f, rfl, by simp [concatAll, String.append_empty]⟩
  | cons p rest ih =>
      obtain ⟨k, v⟩ := p
      intro f hnd hsg
      rw [List.map_cons] at hnd hsg
      have hnd2 : (decide (f.kind.pos ≤ k.pos) &&
          nonDecr (k :: rest.map Prod.fst)) = true := hnd
      rw [Bool.and_eq_true, decide_eq_true_eq] at hnd2
      obtain ⟨hle, hndr⟩ := hnd2
      have hlegal : dispatch (some f.kind) k = .legal := by
        rcases Nat.lt_or_eq_of_le hle with hlt | heq
        · exact dispatch_legal_of_lt f.kind k hlt
        · have hfk : f.kind = k := Kind.pos_injective _ _ heq
          cases hks : k.single with
          | true =>
              exfalso
              have hcount := hsg k hks
              rw [hfk] at hcount
              simp [countK] at hcount
          | false =>
              rw [hfk]
              exact dispatch_legal_of_self_repeat k hks
      have hstep : step (some f) k v = .ok ⟨k, v, f.stringify⟩ :=
        step_of_legal (some f) k v hlegal
      have hsub : ∀ s : Kind, s.single = true →
          countK s (k :: rest.map Prod.fst) ≤ 1 := by
        intro s hs
        exact Nat.le_trans (countK_cons_le s f.kind _) (hsg s hs)
      obtain ⟨g, hg, hgs⟩ := ih ⟨k, v, f.stringify⟩ hndr hsub
      refine ⟨g, ?_, ?_⟩
      · rw [runChain_cons, hstep]
        exact hg
      · rw [hgs, stringify_mk, List.map_cons]
        show _ = f.stringify ++ (renderPart k v ++ _)
        rw [String.append_assoc]

/-- Repeatable kinds can be added over and over once legally reachable. -/
lemma runChain_repeat (r : Kind) (v : String) (hr : r.single = false) :
    ∀ (n : Nat) (f : Fragment), f.kind.pos ≤ r.pos →
      ∃ g, runChain (some f) (List.replicate n (r, v)) = .ok (some g) := by
  intro n
  induction n with
  | zero => intro f _; exact ⟨f, rfl⟩
  | succ m ihm =>
      intro f hle
      have hlegal : dispatch (some f.kind) r = .legal := by
        rcases Nat.lt_or_eq_of_le hle with hlt | heq
        · exact dispatch_legal_of_lt f.kind r hlt
        · rw [Kind.pos_injective _ _ heq]
          exact dispatch_legal_of_self_repeat r hr
      have hstep : step (some f) r v = .ok ⟨r, v, f.stringify⟩ :=
        step_of_legal (some f) r v hlegal
      obtain ⟨g, hg⟩ := ihm ⟨r, v, f.stringify⟩ (Nat.le_refl _)
      refine ⟨g, ?_⟩
      rw [List.replicate_succ, runChain_cons, hstep]
      exact hg

/-- Every kind other than `Element` sits strictly above `Element`. -/
lemma element_pos_lt : ∀ k : Kind, k ≠ .Element → Kind.Element.pos < k.pos := by
  decide

/-- The constructor bodies modelled by `newSelectorS` only read the
builder. -/
lemma newSelectorS_eq (k : Kind) (v : String) (cur : Option Fragment) :
    newSelectorS k v cur = (⟨k, v, prevOf cur⟩, cur) := by
  cases cur <;> rfl

/-- A successful `stepS` returns its receiver untouched together with the
constructor's fragment. -/
lemma stepS_ok_elim (cur : Option Fragment) (k : Kind) (v : String)
    (fr : Fragment) (b : Option Fragment)
    (h : stepS cur k v = .ok (fr, b)) :
    b = cur ∧ fr = ⟨k, v, prevOf cur⟩ := by
  cases hd : dispatch (cur.map Fragment.kind) k <;>
    simp [stepS, hd, newSelectorS_eq] at h
  exact ⟨h.2.symm, h.1.symm⟩

/-- C1: for every chain of part operations whose kinds are non-decreasing
in the total order and that respects the single-occurrence limits, running
the chain succeeds and `stringify()` returns exactly the separator-free
concatenation of each part's per-kind rendering, where `Element` renders
as the value, `Id` as `#value`, `Class` as `.value`, `Attribute` as
`[value]`, `PseudoClass` as `:value` and `PseudoElement` as `::value`. -/
theorem c1_valid_chain_renders_concat (ops : List (Kind × String))
    (hne : ops ≠ [])
    (hnd : nonDecr (ops.map Prod.fst) = true)
    (hsg : ∀ s : Kind, s.single = true → countK s (ops.map Prod.fst) ≤ 1) :
    (∃ g, runChain none ops = .ok (some g) ∧
      g.stringify = concatAll (ops.map fun p => renderPart p.1 p.2)) ∧
    (∀ vv : String, renderPart .Element vv = vv) ∧
    (∀ vv : String, renderPart .Id vv = "#" ++ vv) ∧
    (∀ vv : String, renderPart .Class vv = "." ++ vv) ∧
    (∀ vv : String, renderPart .Attribute vv = "[" ++ vv ++ "]") ∧
    (∀ vv : String, renderPart .PseudoClass vv = ":" ++ vv) ∧
    (∀ vv : String, renderPart .PseudoElement vv = "::" ++ vv) := by
  refine ⟨?_, fun vv => rfl, fun vv => rfl, fun vv => rfl, fun vv => rfl,
    fun vv => rfl, fun vv => rfl⟩
  cases ops with
  | nil => exact absurd rfl hne
  | cons p rest =>
      obtain ⟨k, v⟩ := p
      have hstep : step none k v = .ok ⟨k, v, ""⟩ :=
        step_of_legal none k v (dispatch_none_legal k)
      rw [List.map_cons] at hnd hsg
      obtain ⟨g, hg, hgs⟩ := runChain_valid_ok rest ⟨k, v, ""⟩ hnd hsg
      refine ⟨g, ?_, ?_⟩
      · rw [runChain_cons, hstep]
        exact hg
      · rw [hgs, stringify_mk, String.empty_append, List.map_cons]
        rfl

/-- Witness for C1 at the documented example
`element("div").id("main").class("container")`. -/
theorem c1_witness :
    ((∃ g, runChain none
          [(Kind.Element, "div"), (Kind.Id, "main"), (Kind.Class, "container")] =
          .ok (some g) ∧
        g.stringify = concatAll
          ([(Kind.Element, "div"), (Kind.Id, "main"),
            (Kind.Class, "container")].map fun p => renderPart p.1 p.2)) ∧
      (∀ vv : String, renderPart .Element vv = vv) ∧
      (∀ vv : String, renderPart .Id vv = "#" ++ vv) ∧
      (∀ vv : String, renderPart .Class vv = "." ++ vv) ∧
      (∀ vv : String, renderPart .Attribute vv = "[" ++ vv ++ "]") ∧
      (∀ vv : String, renderPart .PseudoClass vv = ":" ++ vv) ∧
      (∀ vv : String, renderPart .PseudoElement vv = "::" ++ vv)) ∧
    concatAll ([(Kind.Element, "div"), (Kind.Id, "main"),
        (Kind.Class, "container")].map fun p => renderPart p.1 p.2) =
      "div#main.container" :=
  ⟨c1_valid_chain_renders_concat _ (by decide) (by decide) (by decide),
    by decide⟩

/-- C2: on every reachable chain, requesting a part whose kind sorts
strictly below some kind already present raises the order error at that
call. -/
theorem c2_order_violation (ops : List (Kind × String)) (f : Fragment)
    (hrun : runChain none ops = .ok (some f)) (r : Kind) (v : String)
    (hlt : ∃ k ∈ ops.map Prod.fst, r.pos < k.pos) :
    step (some f) r v = .error .orderErr := by
  obtain ⟨k, hk, hkr⟩ := hlt
  have hb := (runChain_ok_bounds ops none f hrun).1 k hk
  exact step_of_order (some f) r v
    (dispatch_order_of_lt f.kind r (Nat.lt_of_lt_of_le hkr hb))

/-- Witness for C2: `id(...)` after `class(...)` raises the order error. -/
theorem c2_witness :
    step (some ⟨Kind.Class, "c", "a"⟩) Kind.Id "x" = .error .orderErr :=
  c2_order_violation [(Kind.Element, "a"), (Kind.Class, "c")]
    ⟨Kind.Class, "c", "a"⟩ (by decide) Kind.Id "x"
    ⟨Kind.Class, by decide, by decide⟩

/-- C3: on every reachable chain, requesting a single-occurrence kind that
already occurs — when no strictly-lower kind is present to trigger the
order error first — raises the cardinality error, while a repeatable kind
(`Class`, `Attribute`, `PseudoClass`) reachable from the chain's current
kind can be added any number of times without any violation. -/
theorem c3_cardinality_and_repeats (ops : List (Kind × String))
    (f : Fragment) (hrun : runChain none ops = .ok (some f))
    (r : Kind) (v : String) :
    (r.single = true → r ∈ ops.map Prod.fst →
      (∀ k ∈ ops.map Prod.fst, k.pos ≤ r.pos) →
      step (some f) r v = .error .multipleErr) ∧
    (r.single = false → f.kind.pos ≤ r.pos → ∀ n : Nat,
      ∃ g, runChain (some f) (List.replicate n (r, v)) = .ok (some g)) := by
  obtain ⟨hbound, _, hmem⟩ := runChain_ok_bounds ops none f hrun
  constructor
  · intro hs hr hmax
    have h1 : r.pos ≤ f.kind.pos := hbound r hr
    have h2 : f.kind.pos ≤ r.pos := by
      rcases hmem with hm | hm
      · exact hmax f.kind hm
      · exact absurd hm (by simp)
    have hfk : f.kind = r := Kind.pos_injective _ _ (Nat.le_antisymm h2 h1)
    refine step_of_multiple (some f) r v ?_
    show dispatch (some f.kind) r = .multiple
    rw [hfk]
    exact dispatch_multiple_of_single_self r hs
  · intro hrs hle n
    exact runChain_repeat r v hrs n f hle

/-- Witness for C3: a second `id(...)` right after `id("m")` raises the
cardinality error, while `class(...)` can be added three times in a row. -/
theorem c3_witness :
    step (some ⟨Kind.Id, "m", "a"⟩) Kind.Id "x" = .error .multipleErr ∧
    ∃ g, runChain (some ⟨Kind.Id, "m", "a"⟩)
        (List.replicate 3 (Kind.Class, "c")) = .ok (some g) := by
  constructor
  · exact (c3_cardinality_and_repeats [(Kind.Element, "a"), (Kind.Id, "m")]
      ⟨Kind.Id, "m", "a"⟩ (by decide) Kind.Id "x").1
      (by decide) (by decide) (by decide)
  · exact (c3_cardinality_and_repeats [(Kind.Element, "a"), (Kind.Id, "m")]
      ⟨Kind.Id, "m", "a"⟩ (by decide) Kind.Class "c").2
      (by decide) (by decide) 3

/-- C4: stringifying a combined value yields the left rendering, a space,
the combinator, a space and the right rendering; and the documented
3-level nested example reproduces its string exactly, including the triple
whitespace around the space combinator. -/
theorem c4_combine_render :
    (∀ (a b : Selector) (c : String),
        (Selector.comb a c b).stringify =
          a.stringify ++ " " ++ c ++ " " ++ b.stringify) ∧
    ∃ fa fb fc fd : Fragment,
      runChain none [(Kind.Element, "div"), (Kind.Id, "main"),
          (Kind.Class, "container"), (Kind.Class, "draggable")] =
        .ok (some fa) ∧
      runChain none [(Kind.Element, "table"), (Kind.Id, "data")] =
        .ok (some fb) ∧
      runChain none [(Kind.Element, "tr"),
          (Kind.PseudoClass, "nth-of-type(even)")] = .ok (some fc) ∧
      runChain none [(Kind.Element, "td"),
          (Kind.PseudoClass, "nth-of-type(even)")] = .ok (some fd) ∧
      (Selector.comb (.frag fa) "+" (Selector.comb (.frag fb) "~"
          (Selector.comb (.frag fc) " " (.frag fd)))).stringify =
        "div#main.container.draggable + table#data ~ tr:nth-of-type(even)   td:nth-of-type(even)" := by
  refine ⟨fun a b c => rfl,
    ⟨Kind.Class, "draggable", "div#main.container"⟩,
    ⟨Kind.Id, "data", "table"⟩,
    ⟨Kind.PseudoClass, "nth-of-type(even)", "tr"⟩,
    ⟨Kind.PseudoClass, "nth-of-type(even)", "td"⟩,
    by decide, by decide, by decide, by decide, by decide⟩

/-- C5 counterexample: after `element("a").id("b")`, a second `element`
call raises the order error, not the cardinality error the claim
predicts. -/
theorem c5_counterexample :
    runChain none [(Kind.Element, "a"), (Kind.Id, "b")] =
      .ok (some ⟨Kind.Id, "b", "a"⟩) ∧
    step (some ⟨Kind.Id, "b", "a"⟩) Kind.Element "c" = .error .orderErr ∧
    step (some ⟨Kind.Id, "b", "a"⟩) Kind.Element "c" ≠
      .error .multipleErr := by decide

/-- C5 amended: on a chain containing an `Element` part, a second
`element(...)` call always raises an error — the cardinality error when
the chain still ends in the element itself, and the order error once any
later-ordered kind has been added. -/
theorem c5_second_element_always_errors (ops : List (Kind × String))
    (f : Fragment) (hrun : runChain none ops = .ok (some f))
    (hel : Kind.Element ∈ ops.map Prod.fst) (v : String) :
    step (some f) Kind.Element v =
      .error (if f.kind = Kind.Element then SelErr.multipleErr
              else SelErr.orderErr) := by
  by_cases h : f.kind = Kind.Element
  · rw [if_pos h]
    refine step_of_multiple (some f) Kind.Element v ?_
    show dispatch (some f.kind) Kind.Element = .multiple
    rw [h]
    exact dispatch_multiple_of_single_self Kind.Element rfl
  · rw [if_neg h]
    exact step_of_order (some f) Kind.Element v
      (dispatch_order_of_lt f.kind Kind.Element (element_pos_lt f.kind h))

/-- Witness for the amended C5: both branches at concrete chains. -/
theorem c5_witness :
    step (some ⟨Kind.Element, "a", ""⟩) Kind.Element "x" =
      .error .multipleErr ∧
    step (some ⟨Kind.Class, "c", "a"⟩) Kind.Element "x" =
      .error .orderErr := by
  constructor
  · exact (c5_second_element_always_errors [(Kind.Element, "a")]
      ⟨Kind.Element, "a", ""⟩ (by decide) (by decide) "x").trans (by decide)
  · exact (c5_second_element_always_errors
      [(Kind.Element, "a"), (Kind.Class, "c")] ⟨Kind.Class, "c", "a"⟩
      (by decide) (by decide) "x").trans (by decide)

/-- C6: every error a part-adding call raises carries its fixed message:
the order error the source's regex-derived text listing the required order
`element, id, class, attribute, pseudo-class, pseudo-element`, the
cardinality error the fixed text that element, id and pseudo-element must
not occur more than once in a selector. -/
theorem c6_error_messages (cur : Option Fragment) (k : Kind) (v : String)
    (e : SelErr) (h : step cur k v = .error e) :
    (e = .orderErr → e.message = selectorsOrderMessage) ∧
    (e = .multipleErr → e.message = multipleSelectorsMessage) ∧
    listContainsSub selectorsOrderMessage.data
      "element, id, class, attribute, pseudo-class, pseudo-element".data =
      true ∧
    listContainsSub multipleSelectorsMessage.data
      "should not occur more".data = true :=
  ⟨fun he => by rw [he]; rfl, fun he => by rw [he]; rfl, by decide,
    by decide⟩

/-- Witness for C6 at a concrete order-violating call. -/
theorem c6_witness :
    (SelErr.orderErr = .orderErr →
      SelErr.message .orderErr = selectorsOrderMessage) ∧
    (SelErr.orderErr = .multipleErr →
      SelErr.message .orderErr = multipleSelectorsMessage) ∧
    listContainsSub selectorsOrderMessage.data
      "element, id, class, attribute, pseudo-class, pseudo-element".data =
      true ∧
    listContainsSub multipleSelectorsMessage.data
      "should not occur more".data = true :=
  c6_error_messages (some ⟨Kind.Id, "b", "a"⟩) Kind.Element "x"
    SelErr.orderErr (by decide)

/-- C7: neither `stringify` nor `combine` validates the combinator token:
even a token outside the four documented combinators is incorporated into
the output verbatim, and rendering is total (never an error). -/
theorem c7_combine_token_verbatim (a b : Selector) (tok : String)
    (h : tok ∉ ([" ", "+", "~", ">"] : List String)) :
    (Selector.comb a tok b).stringify =
      a.stringify ++ " " ++ tok ++ " " ++ b.stringify := rfl

/-- Witness for C7 with the unrecognized token `@@`. -/
theorem c7_witness :
    (Selector.comb (.frag ⟨Kind.Element, "a", ""⟩) "@@"
        (.frag ⟨Kind.Id, "b", ""⟩)).stringify =
      (Selector.frag ⟨Kind.Element, "a", ""⟩).stringify ++ " " ++ "@@" ++
        " " ++ (Selector.frag ⟨Kind.Id, "b", ""⟩).stringify :=
  c7_combine_token_verbatim (.frag ⟨Kind.Element, "a", ""⟩)
    (.frag ⟨Kind.Id, "b", ""⟩) "@@" (by decide)

/-- C8: rendering is side-effect-free and idempotent — under the
state-passing translation of the method bodies, `stringify` returns every
built value (fragment chain or combined value) unchanged, a second call
returns the identical string, and the returned string is the pure
rendering. -/
theorem c8_render_idempotent_pure (s : Selector) :
    (Selector.renderS s).2 = s ∧
    (Selector.renderS ((Selector.renderS s).2)).1 = (Selector.renderS s).1 ∧
    (Selector.renderS s).1 = s.stringify := by
  have h2 : ∀ t : Selector, (Selector.renderS t).2 = t := by
    intro t
    induction t with
    | frag f => rfl
    | comb a c b iha ihb => simp [Selector.renderS, iha, ihb]
  have h1 : ∀ t : Selector, (Selector.renderS t).1 = t.stringify := by
    intro t
    induction t with
    | frag f => rfl
    | comb a c b iha ihb =>
        simp [Selector.renderS, Selector.stringify, iha, ihb]
  exact ⟨h2 s, by rw [h2 s], h1 s⟩

/-- C9: a fragment used as a shared prefix is never mutated — under the
state-passing translation of the constructors, extending it twice returns
the prefix unchanged both times, and each extension's rendering is the
prefix's (cached) rendering followed by the new part's rendering, so
neither extension can affect the other or the prefix. -/
theorem c9_shared_prefix_immutable (p : Fragment) (k1 k2 : Kind)
    (v1 v2 : String) (g1 g2 : Fragment) (b1 b2 : Option Fragment)
    (h1 : stepS (some p) k1 v1 = .ok (g1, b1))
    (h2 : stepS (some p) k2 v2 = .ok (g2, b2)) :
    b1 = some p ∧ b2 = some p ∧
    g1.stringify = p.stringify ++ renderPart k1 v1 ∧
    g2.stringify = p.stringify ++ renderPart k2 v2 := by
  obtain ⟨hb1, hg1⟩ := stepS_ok_elim (some p) k1 v1 g1 b1 h1
  obtain ⟨hb2, hg2⟩ := stepS_ok_elim (some p) k2 v2 g2 b2 h2
  refine ⟨hb1, hb2, ?_, ?_⟩
  · rw [hg1]
    exact stringify_mk k1 v1 p.stringify
  · rw [hg2]
    exact stringify_mk k2 v2 p.stringify

/-- Witness for C9: branching `id("main")` and `class("c")` off the shared
prefix `element("div")`. -/
theorem c9_witness :
    (some (⟨Kind.Element, "div", ""⟩ : Fragment) =
      some ⟨Kind.Element, "div", ""⟩) ∧
    (some (⟨Kind.Element, "div", ""⟩ : Fragment) =
      some ⟨Kind.Element, "div", ""⟩) ∧
    Fragment.stringify ⟨Kind.Id, "main", "div"⟩ =
      Fragment.stringify ⟨Kind.Element, "div", ""⟩ ++
        renderPart Kind.Id "main" ∧
    Fragment.stringify ⟨Kind.Class, "c", "div"⟩ =
      Fragment.stringify ⟨Kind.Element, "div", ""⟩ ++
        renderPart Kind.Class "c" :=
  c9_shared_prefix_immutable ⟨Kind.Element, "div", ""⟩ Kind.Id Kind.Class
    "main" "c" ⟨Kind.Id, "main", "div"⟩ ⟨Kind.Class, "c", "div"⟩
    (some ⟨Kind.Element, "div", ""⟩) (some ⟨Kind.Element, "div", ""⟩)
    (by decide) (by decide)

/-- C10: part operations never validate the payload — whether a call
errors is independent of the payload string (the empty string included),
and the payload is embedded verbatim between its kind's fixed tokens in
the rendered output. -/
theorem c10_payload_unvalidated (cur : Option Fragment) (k : Kind)
    (v w p : String) :
    (∀ e : SelErr, step cur k v = .error e ↔ step cur k w = .error e) ∧
    (∀ e : SelErr, step cur k v = .error e ↔ step cur k "" = .error e) ∧
    Fragment.stringify ⟨k, v, p⟩ = p ++ (openTok k ++ v ++ closeTok k) := by
  refine ⟨?_, ?_, ?_⟩
  · intro e
    cases hd : dispatch (cur.map Fragment.kind) k <;> simp [step, hd]
  · intro e
    cases hd : dispatch (cur.map Fragment.kind) k <;> simp [step, hd]
  · rw [stringify_mk]
    congr 1
    cases k <;> simp [renderPart, Fragment.currentValueStr, openTok,
      closeTok, String.append_empty, String.empty_append]
